import Mathlib

/-!
Shallow embedding of the pendulum simulation in `src/src/Pendulum.js`.

The component state lives in React `useState` hooks; one tick of the
`useFrame` callback is modelled as a pure function from the committed
state (the render snapshot) to the next committed state.  Inside one
callback invocation every read of a state variable sees the snapshot
value, and each `setX` call queues the new value for the next render;
in particular the gravity-off branch reads the snapshot `amplitude`
even on the frame where the on-to-off transition has just queued
`setAmplitude(angle)`.  Pointer handlers are likewise pure functions of
the snapshot state plus the geometric data derived from the event
(the ray-plane intersection point on the plane z = 0, and the value of
`sphere.current.position` the handler compares against).  All JS
numbers are modelled as real numbers.
-/

namespace Pendulum

/-- Fixed rod length, `const length = 2` in the source. -/
def length : ℝ := 2

/-- The `useState` hook values of the `Pendulum` component. -/
structure PendulumState where
  isDragging : Bool
  isClickedDown : Bool
  angle : ℝ
  velocity : ℝ
  amplitude : ℝ
  lastGravityOn : Bool

/-- The object passed to `onEnergyUpdate` in the gravity-on branch. -/
structure Energy where
  kineticEnergy : ℝ
  potentialEnergy : ℝ
  mechanicalEnergy : ℝ

/-- The `energyData` state of `PendulumScene`: four parallel series. -/
structure EnergyData where
  mechanicalEnergy : List ℝ
  potentialEnergy : List ℝ
  kineticEnergy : List ℝ
  time : List ℝ

/-- JS `Math.atan2(y, x)`: the argument of the complex number x + y i,
in the interval (-pi, pi], with `atan2 0 0 = 0`, matching `Complex.arg`. -/
noncomputable def atan2 (y x : ℝ) : ℝ := Complex.arg ⟨x, y⟩

/-- `THREE.Vector3.normalize` restricted to the plane z = 0.  THREE divides
by `length() || 1`, sending the zero vector to itself; dividing by the norm
with the Lean convention `x / 0 = 0` gives the same result. -/
noncomputable def normalizeVec (v : ℝ × ℝ) : ℝ × ℝ :=
  let n := Real.sqrt (v.1 ^ 2 + v.2 ^ 2)
  (v.1 / n, v.2 / n)

/-- `THREE.Vector3.distanceTo` for points on the plane z = 0. -/
noncomputable def distanceTo (a b : ℝ × ℝ) : ℝ :=
  Real.sqrt ((a.1 - b.1) ^ 2 + (a.2 - b.2) ^ 2)

/-- `calculateAngleFromMouse`, taking the already raycast intersection
point of the pointer ray with the plane z = 0.  The pivot is the origin,
so the direction vector is the intersection point itself, normalized,
and the result is `Math.atan2(direction.y, direction.x)`. -/
noncomputable def calculateAngleFromMouse (p : ℝ × ℝ) : ℝ :=
  let direction := normalizeVec p
  atan2 direction.2 direction.1

/-- The value of `sphere.current.position`: the constant local position
(0, -length, 0) set by the `position` prop of the Sphere, projected to the
plane z = 0.  The program never writes this field; the animation writes
`pivot.current.rotation.z` on the parent group, so the local position stays
fixed at (0, -length, 0) even though the rendered world position rotates
with the pivot. -/
def spherePos : ℝ × ℝ := (0, -length)

/-- `handlePointerDown`: `p` is the ray-plane intersection point computed
from the event, `bobPos` the value of `sphere.current.position` (projected
to the plane z = 0, where both points lie); the program always calls this
handler with `bobPos = spherePos`. -/
noncomputable def handlePointerDown (p bobPos : ℝ × ℝ) (s : PendulumState) :
    PendulumState :=
  if distanceTo p bobPos < 0.5 then
    let newAngle := calculateAngleFromMouse p
    { s with
      isDragging := true
      isClickedDown := true
      angle := newAngle
      velocity := 0
      amplitude := |newAngle| }
  else s

/-- `handlePointerMove`: acts only while `isDragging && isClickedDown`,
writing the recomputed angle plus the pi/2 offset.  The parallel write to
`pivot.current.rotation.z` is presentation and is not modelled. -/
noncomputable def handlePointerMove (p : ℝ × ℝ) (s : PendulumState) :
    PendulumState :=
  if s.isDragging && s.isClickedDown then
    { s with angle := calculateAngleFromMouse p + Real.pi / 2 }
  else s

/-- `handlePointerUp`: clears both interaction flags unconditionally. -/
def handlePointerUp (s : PendulumState) : PendulumState :=
  { s with isDragging := false, isClickedDown := false }

/-- One invocation of the `useFrame` callback with props `isSwinging`,
`gravityOn` and wall clock `Date.now() = nowMs`, returning the next
committed state together with the energy sample passed to
`onEnergyUpdate` (if any).  The gravity-off branch reads the snapshot
`s.amplitude` (the `const` captured at render time), not the amplitude
queued by the transition detection in the same invocation. -/
noncomputable def useFrame (isSwinging gravityOn : Bool) (nowMs : ℝ)
    (s : PendulumState) : PendulumState × Option Energy :=
  let newAmplitude :=
    if (s.lastGravityOn != gravityOn) && !gravityOn then s.angle
    else s.amplitude
  let s1 : PendulumState :=
    { s with amplitude := newAmplitude, lastGravityOn := gravityOn }
  if isSwinging && !s.isDragging then
    if gravityOn then
      let acceleration := -0.001 * Real.sin s.angle
      let newVelocity := (s.velocity + acceleration) * 0.999
      let newAngle := s.angle + newVelocity
      let kineticEnergy := 0.5 * (length * newVelocity) ^ 2
      let potentialEnergy := 0.001 * length * (1 - Real.cos newAngle)
      let mechanicalEnergy := kineticEnergy + potentialEnergy
      ({ s1 with angle := newAngle, velocity := newVelocity },
        some { kineticEnergy := kineticEnergy
               potentialEnergy := potentialEnergy
               mechanicalEnergy := mechanicalEnergy })
    else
      ({ s1 with angle := s.amplitude * Real.sin (nowMs * 0.002) }, none)
  else
    (s1, none)

/-- The initial hook values of the `Pendulum` component:
`useState(true)` for `isDragging`, `useState(false)` for `isClickedDown`,
`useState(Math.PI / 2)` for `angle` and `amplitude`, `useState(0)` for
`velocity`, `useState(true)` for `lastGravityOn`. -/
noncomputable def initialState : PendulumState :=
  { isDragging := true
    isClickedDown := false
    angle := Real.pi / 2
    velocity := 0
    amplitude := Real.pi / 2
    lastGravityOn := true }

/-- World position of the bob under pivot rotation `rotation.z = θ`:
the sphere sits at local position (0, -length, 0) inside the rotated
group, so its rendered position is the rotation of that vector by θ. -/
noncomputable def renderedBobPos (θ : ℝ) : ℝ × ℝ :=
  (length * Real.sin θ, -(length * Real.cos θ))

/-- `handleEnergyUpdate` of `PendulumScene`: appends one sample to each
of the four series, assigning `time` from the last stored tick
(`prevState.time[prevState.time.length - 1] + 1`, or 0 when the series
is empty). -/
def handleEnergyUpdate (ed : EnergyData) (energy : Energy) : EnergyData :=
  let time :=
    match ed.time.getLast? with
    | none => 0
    | some t => t + 1
  { mechanicalEnergy := ed.mechanicalEnergy ++ [energy.mechanicalEnergy]
    potentialEnergy := ed.potentialEnergy ++ [energy.potentialEnergy]
    kineticEnergy := ed.kineticEnergy ++ [energy.kineticEnergy]
    time := ed.time ++ [time] }

/-- The initial `energyData` state of `PendulumScene`: four empty series. -/
def initialEnergyData : EnergyData := ⟨[], [], [], []⟩

/-! ### Helper lemmas -/

lemma useFrame_on_eq (t a v amp : ℝ) (cd lg : Bool) :
    useFrame true true t ⟨false, cd, a, v, amp, lg⟩ =
      (⟨false, cd, a + (v + -0.001 * Real.sin a) * 0.999,
        (v + -0.001 * Real.sin a) * 0.999, amp, true⟩,
       some ⟨0.5 * (length * ((v + -0.001 * Real.sin a) * 0.999)) ^ 2,
             0.001 * length *
               (1 - Real.cos (a + (v + -0.001 * Real.sin a) * 0.999)),
             0.5 * (length * ((v + -0.001 * Real.sin a) * 0.999)) ^ 2 +
               0.001 * length *
                 (1 - Real.cos (a + (v + -0.001 * Real.sin a) * 0.999))⟩) := by
  simp [useFrame]

lemma useFrame_off_eq (t a v amp : ℝ) (cd lg : Bool) :
    (useFrame true false t ⟨false, cd, a, v, amp, lg⟩).1.angle =
      amp * Real.sin (t * 0.002) ∧
    (useFrame true false t ⟨false, cd, a, v, amp, lg⟩).1.velocity = v ∧
    (useFrame true false t ⟨false, cd, a, v, amp, lg⟩).2 = none := by
  cases lg <;> simp [useFrame]

lemma iterate_zero_fixed (t : ℝ) (cd : Bool) (amp : ℝ) :
    ∀ (n : ℕ) (lg : Bool),
      ∃ b, (fun s => (useFrame true true t s).1)^[n] ⟨false, cd, 0, 0, amp, lg⟩ =
        ⟨false, cd, 0, 0, amp, b⟩ := by
  intro n
  induction n with
  | zero => exact fun lg => ⟨lg, rfl⟩
  | succ m ih =>
    intro lg
    rw [Function.iterate_succ_apply]
    have hstep : (useFrame true true t ⟨false, cd, 0, 0, amp, lg⟩).1 =
        ⟨false, cd, 0, 0, amp, true⟩ := by
      rw [useFrame_on_eq]
      simp
    rw [hstep]
    exact ih true

/-! ### Claims about the frame tick -/

/-- C1: with swinging on, not dragging, and gravity on, one tick performs
the damped semi-implicit Euler step
newVelocity = (v + (-0.001 * sin a)) * 0.999, newAngle = a + newVelocity;
from angle pi/2 and velocity 0 one tick gives velocity -0.000999 and
angle pi/2 - 0.000999; and angle = 0, velocity = 0 is a fixed point
across any number of ticks. -/
theorem gravity_on_euler_step :
    (∀ (a v amp : ℝ) (cd lg : Bool) (t : ℝ),
      (useFrame true true t ⟨false, cd, a, v, amp, lg⟩).1.velocity =
        (v + -0.001 * Real.sin a) * 0.999 ∧
      (useFrame true true t ⟨false, cd, a, v, amp, lg⟩).1.angle =
        a + (v + -0.001 * Real.sin a) * 0.999) ∧
    ((useFrame true true 0
        ⟨false, false, Real.pi / 2, 0, Real.pi / 2, true⟩).1.velocity =
      -0.000999 ∧
     (useFrame true true 0
        ⟨false, false, Real.pi / 2, 0, Real.pi / 2, true⟩).1.angle =
      Real.pi / 2 - 0.000999) ∧
    (∀ (amp : ℝ) (cd lg : Bool) (t : ℝ) (n : ℕ),
      ((fun s => (useFrame true true t s).1)^[n]
        ⟨false, cd, 0, 0, amp, lg⟩).angle = 0 ∧
      ((fun s => (useFrame true true t s).1)^[n]
        ⟨false, cd, 0, 0, amp, lg⟩).velocity = 0) := by
  refine ⟨fun a v amp cd lg t => ?_, ?_, fun amp cd lg t n => ?_⟩
  · rw [useFrame_on_eq]
    exact ⟨rfl, rfl⟩
  · rw [useFrame_on_eq]
    constructor
    · simp [Real.sin_pi_div_two]
      norm_num
    · simp [Real.sin_pi_div_two]
      norm_num
      ring
  · obtain ⟨b, hb⟩ := iterate_zero_fixed t cd amp n lg
    rw [hb]
    exact ⟨rfl, rfl⟩

/-- C2: one tick emits an energy sample if and only if isSwinging is true,
isDragging is false and gravityOn is true; the sample is computed from the
just-updated angle and velocity of that tick as
kineticEnergy = 0.5 * (length * velocity)^2,
potentialEnergy = 0.001 * length * (1 - cos angle),
mechanicalEnergy = their sum, with length = 2; no sample is emitted in
gravity-off mode, while dragging, or while paused. -/
theorem energy_sampling_iff :
    (∀ (sw g d cd lg : Bool) (t a v amp : ℝ),
      (useFrame sw g t ⟨d, cd, a, v, amp, lg⟩).2 =
        if sw && !d && g then
          some ⟨0.5 * (length * ((v + -0.001 * Real.sin a) * 0.999)) ^ 2,
                0.001 * length *
                  (1 - Real.cos (a + (v + -0.001 * Real.sin a) * 0.999)),
                0.5 * (length * ((v + -0.001 * Real.sin a) * 0.999)) ^ 2 +
                  0.001 * length *
                    (1 - Real.cos (a + (v + -0.001 * Real.sin a) * 0.999))⟩
        else none) ∧
    (∀ (cd lg : Bool) (t a v amp : ℝ),
      (useFrame true true t ⟨false, cd, a, v, amp, lg⟩).1.velocity =
        (v + -0.001 * Real.sin a) * 0.999 ∧
      (useFrame true true t ⟨false, cd, a, v, amp, lg⟩).1.angle =
        a + (v + -0.001 * Real.sin a) * 0.999) ∧
    length = 2 := by
  refine ⟨fun sw g d cd lg t a v amp => ?_, fun cd lg t a v amp => ?_, rfl⟩
  · cases sw <;> cases d <;> cases g <;> simp [useFrame]
  · rw [useFrame_on_eq]
    exact ⟨rfl, rfl⟩

/-- C3: with swinging on, not dragging, and gravity off, one tick sets the
angle to amplitude * sin(wallClockMillis * 0.002) from the wall clock,
independently of the previous angle, and leaves the stored velocity
unchanged. -/
theorem gravity_off_step :
    ∀ (a v amp : ℝ) (cd lg : Bool) (t : ℝ),
      (useFrame true false t ⟨false, cd, a, v, amp, lg⟩).1.angle =
        amp * Real.sin (t * 0.002) ∧
      (useFrame true false t ⟨false, cd, a, v, amp, lg⟩).1.velocity = v := by
  intro a v amp cd lg t
  exact ⟨(useFrame_off_eq t a v amp cd lg).1, (useFrame_off_eq t a v amp cd lg).2.1⟩

/-- C4: contrary to the claim, the component initializes isDragging with
useState(true), so before any pointer event the guard
isSwinging and not isDragging is false and the very first ticks change
neither angle nor velocity and emit no sample. -/
theorem initial_state_dragging_blocks :
    initialState.isDragging = true ∧
    ∀ (sw g : Bool) (t : ℝ),
      (useFrame sw g t initialState).1.angle = initialState.angle ∧
      (useFrame sw g t initialState).1.velocity = initialState.velocity ∧
      (useFrame sw g t initialState).2 = none := by
  refine ⟨rfl, fun sw g t => ?_⟩
  cases sw <;> cases g <;> simp [useFrame, initialState]

/-- C5: amplitude is mutated in exactly two places: a successful
drag-start sets it to the absolute value of the freshly computed pointer
angle, and a frame where the gravity flag goes from on to off sets it to
the current angle; every other frame of useFrame (in particular every
gravity-on integration step), every pointer move, and every pointer up
leave it unchanged. -/
theorem amplitude_update_cases :
    (∀ (p bob : ℝ × ℝ) (s : PendulumState),
      (handlePointerDown p bob s).amplitude =
        if distanceTo p bob < 0.5 then |calculateAngleFromMouse p|
        else s.amplitude) ∧
    (∀ (sw g : Bool) (t : ℝ) (s : PendulumState),
      (useFrame sw g t s).1.amplitude =
        if (s.lastGravityOn != g) && !g then s.angle else s.amplitude) ∧
    (∀ (sw : Bool) (t : ℝ) (s : PendulumState),
      (useFrame sw true t s).1.amplitude = s.amplitude) ∧
    (∀ (p : ℝ × ℝ) (s : PendulumState),
      (handlePointerMove p s).amplitude = s.amplitude) ∧
    (∀ (s : PendulumState), (handlePointerUp s).amplitude = s.amplitude) := by
  refine ⟨fun p bob s => ?_, fun sw g t s => ?_, fun sw t s => ?_,
    fun p s => ?_, fun s => rfl⟩
  · by_cases h : distanceTo p bob < 0.5 <;> simp [handlePointerDown, h]
  · rcases s with ⟨d, cd, a, v, amp, lg⟩
    cases sw <;> cases g <;> cases d <;> cases lg <;> simp [useFrame]
  · rcases s with ⟨d, cd, a, v, amp, lg⟩
    cases sw <;> cases d <;> cases lg <;> simp [useFrame]
  · by_cases h : s.isDragging && s.isClickedDown <;> simp [handlePointerMove, h]

/-! ### Pointer-down grab radius -/

lemma distanceTo_horizontal (x : ℝ) (hx : 0 ≤ x) :
    distanceTo (x, -2) (0, -2) = x := by
  unfold distanceTo
  have h : (x - 0) ^ 2 + ((-2 : ℝ) - -2) ^ 2 = x ^ 2 := by ring
  rw [h, Real.sqrt_sq hx]

/-- C6 counterexample: with the pendulum at angle pi/2 (pivot rotation
pi/2, written by the preceding frame), the bob renders at (2, 0), yet a
pointer down exactly on the rendered bob (distance 0 to the rendered
position, well within the 0.5 grab radius of the claim) is a no-op and
does not enter dragging mode: the handler measures the distance to
`sphere.current.position`, the constant local position (0, -2), which is
more than 0.5 away. -/
theorem pointer_down_rendered_position_fails :
    distanceTo (renderedBobPos (Real.pi / 2)) (renderedBobPos (Real.pi / 2)) <
      0.5 ∧
    handlePointerDown (renderedBobPos (Real.pi / 2)) spherePos
        ⟨false, false, Real.pi / 2, 0, Real.pi / 2, true⟩ =
      ⟨false, false, Real.pi / 2, 0, Real.pi / 2, true⟩ ∧
    (handlePointerDown (renderedBobPos (Real.pi / 2)) spherePos
        ⟨false, false, Real.pi / 2, 0, Real.pi / 2, true⟩).isDragging =
      false ∧
    ¬ distanceTo (renderedBobPos (Real.pi / 2)) spherePos < 0.5 := by
  have hb : renderedBobPos (Real.pi / 2) = (2, 0) := by
    simp [renderedBobPos, length, Real.sin_pi_div_two, Real.cos_pi_div_two]
  have hd2 : ¬ distanceTo ((2 : ℝ), (0 : ℝ)) spherePos < 0.5 := by
    have h8 : distanceTo ((2 : ℝ), (0 : ℝ)) spherePos = Real.sqrt 8 := by
      unfold distanceTo spherePos length
      norm_num
    rw [h8]
    have hle : (0.5 : ℝ) ≤ Real.sqrt 8 := by
      rw [show (0.5 : ℝ) = Real.sqrt 0.25 by
        rw [show (0.25 : ℝ) = 0.5 ^ 2 by norm_num,
          Real.sqrt_sq (by norm_num : (0 : ℝ) ≤ 0.5)]]
      exact Real.sqrt_le_sqrt (by norm_num)
    exact not_lt.mpr hle
  rw [hb]
  have hnoop : handlePointerDown ((2 : ℝ), (0 : ℝ)) spherePos
      ⟨false, false, Real.pi / 2, 0, Real.pi / 2, true⟩ =
      ⟨false, false, Real.pi / 2, 0, Real.pi / 2, true⟩ := by
    simp [handlePointerDown, hd2]
  refine ⟨?_, hnoop, ?_, hd2⟩
  · unfold distanceTo
    norm_num
  · rw [hnoop]

/-- C6 (amended): the handler compares the intersection point against
`sphere.current.position`, the constant local position (0, -length), not
the rendered world position; it enters dragging mode exactly when that
distance is strictly below 0.5, in which case it sets isDragging and
isClickedDown, stores the computed pointer angle, zeroes the velocity,
and sets amplitude to the absolute value of that angle; otherwise the
entire state is unchanged. -/
theorem pointer_down_local_grab_radius :
    ∀ (p : ℝ × ℝ) (s : PendulumState),
      (distanceTo p spherePos < 0.5 →
        handlePointerDown p spherePos s =
          ⟨true, true, calculateAngleFromMouse p, 0,
            |calculateAngleFromMouse p|, s.lastGravityOn⟩) ∧
      (¬ distanceTo p spherePos < 0.5 →
        handlePointerDown p spherePos s = s) ∧
      spherePos = (0, -length) := by
  intro p s
  refine ⟨fun h => ?_, fun h => ?_, rfl⟩ <;> simp [handlePointerDown, h]

/-- C6 witness: with the handler compared point at its program value
(0, -2), a pointer down at distance 0.3 starts the drag and one at
distance 0.6 does not. -/
theorem pointer_down_local_grab_radius_witness :
    handlePointerDown (0.3, -2) spherePos initialState =
      ⟨true, true, calculateAngleFromMouse (0.3, -2), 0,
        |calculateAngleFromMouse (0.3, -2)|, initialState.lastGravityOn⟩ ∧
    handlePointerDown (0.6, -2) spherePos initialState = initialState := by
  have hsp : spherePos = ((0 : ℝ), (-2 : ℝ)) := rfl
  have h1 : distanceTo (0.3, -2) spherePos < 0.5 := by
    rw [hsp, distanceTo_horizontal 0.3 (by norm_num)]
    norm_num
  have h2 : ¬ distanceTo (0.6, -2) spherePos < 0.5 := by
    rw [hsp, distanceTo_horizontal 0.6 (by norm_num)]
    norm_num
  exact ⟨(pointer_down_local_grab_radius (0.3, -2) initialState).1 h1,
    (pointer_down_local_grab_radius (0.6, -2) initialState).2.1 h2⟩

/-! ### Round-trip of the pointer angle through the rendered position -/

lemma arg_mk_cos_sin (φ : ℝ) (h1 : -Real.pi < φ) (h2 : φ ≤ Real.pi) :
    Complex.arg ⟨Real.cos φ, Real.sin φ⟩ = φ := by
  have h := Complex.arg_cos_add_sin_mul_I (θ := φ) ⟨h1, h2⟩
  have hc : (⟨Real.cos φ, Real.sin φ⟩ : ℂ) =
      Complex.cos φ + Complex.sin φ * Complex.I := by
    simp [Complex.ext_iff, Complex.cos_ofReal_re, Complex.sin_ofReal_re]
  rw [hc]
  exact h

lemma calc_angle_polar (r φ : ℝ) (hr : 0 < r) (h1 : -Real.pi < φ)
    (h2 : φ ≤ Real.pi) :
    calculateAngleFromMouse (r * Real.cos φ, r * Real.sin φ) = φ := by
  have hn : Real.sqrt ((r * Real.cos φ) ^ 2 + (r * Real.sin φ) ^ 2) = r := by
    have hs : (r * Real.cos φ) ^ 2 + (r * Real.sin φ) ^ 2 = r ^ 2 := by
      have := Real.sin_sq_add_cos_sq φ
      nlinarith
    rw [hs, Real.sqrt_sq hr.le]
  simp only [calculateAngleFromMouse, normalizeVec, atan2]
  rw [hn]
  have hx : r * Real.cos φ / r = Real.cos φ := by
    field_simp
  have hy : r * Real.sin φ / r = Real.sin φ := by
    field_simp
  rw [hx, hy]
  exact arg_mk_cos_sin φ h1 h2

lemma rendered_eq_polar (θ : ℝ) :
    renderedBobPos θ =
      (2 * Real.cos (θ - Real.pi / 2), 2 * Real.sin (θ - Real.pi / 2)) := by
  unfold renderedBobPos length
  rw [Prod.ext_iff]
  constructor
  · simp [Real.cos_sub]
  · simp [Real.sin_sub]

lemma calc_angle_rendered (θ : ℝ) (h1 : -Real.pi < θ - Real.pi / 2)
    (h2 : θ - Real.pi / 2 ≤ Real.pi) :
    calculateAngleFromMouse (renderedBobPos θ) = θ - Real.pi / 2 := by
  rw [rendered_eq_polar]
  exact calc_angle_polar 2 (θ - Real.pi / 2) (by norm_num) h1 h2

/-- C7 counterexample: at angle 0 the bob renders at (0, -2), and the
pointer-angle computation returns -(pi/2), not the original angle 0. -/
theorem roundtrip_fails_at_zero :
    calculateAngleFromMouse (renderedBobPos 0) = -(Real.pi / 2) ∧
    calculateAngleFromMouse (renderedBobPos 0) ≠ 0 := by
  have hp := Real.pi_pos
  have h := calc_angle_rendered 0 (by linarith) (by linarith)
  constructor
  · rw [h]
    ring
  · rw [h]
    intro hc
    linarith

/-- C7 (amended): the pointer-angle computation applied to the rendered
bob position under pivot rotation θ returns θ - pi/2, the rendering
convention offset; composed with the + pi/2 offset that the pointer-move
handler applies, the round-trip returns the original angle, for every
angle in the branch (-(pi/2), pi] where no wrap-around occurs. -/
theorem roundtrip_with_offset (θ : ℝ) (h1 : -(Real.pi / 2) < θ)
    (h2 : θ ≤ Real.pi) :
    calculateAngleFromMouse (renderedBobPos θ) = θ - Real.pi / 2 ∧
    calculateAngleFromMouse (renderedBobPos θ) + Real.pi / 2 = θ := by
  have hp := Real.pi_pos
  have h := calc_angle_rendered θ (by linarith) (by linarith)
  exact ⟨h, by rw [h]; ring⟩

/-- C7 witness: the round-trip with the pi/2 offset recovers the initial
angle pi/2. -/
theorem roundtrip_with_offset_witness :
    -(Real.pi / 2) < Real.pi / 2 ∧ Real.pi / 2 ≤ Real.pi ∧
    calculateAngleFromMouse (renderedBobPos (Real.pi / 2)) + Real.pi / 2 =
      Real.pi / 2 := by
  have hp := Real.pi_pos
  exact ⟨by linarith, by linarith,
    (roundtrip_with_offset (Real.pi / 2) (by linarith) (by linarith)).2⟩

/-! ### Gravity-off oscillation bound -/

/-- C8 counterexample: with the captured amplitude equal to -1 (which the
gravity on-to-off transition can store, since it stores the signed angle)
and wall clock 250 * pi, the gravity-off tick sets the angle to -1, which
lies outside the interval from -amplitude = 1 down to amplitude = -1; the
interval of the claim is empty for negative amplitude. -/
theorem gravity_off_bound_fails_neg_amplitude :
    (useFrame true false (250 * Real.pi)
      ⟨false, false, 0, 0, -1, false⟩).1.angle = -1 ∧
    ¬ (useFrame true false (250 * Real.pi)
        ⟨false, false, 0, 0, -1, false⟩).1.angle ∈
          Set.Icc (-(-1 : ℝ)) (-1 : ℝ) := by
  have ht : (250 : ℝ) * Real.pi * 0.002 = Real.pi / 2 := by
    ring
  have ha : (useFrame true false (250 * Real.pi)
      ⟨false, false, 0, 0, -1, false⟩).1.angle = -1 := by
    rw [(useFrame_off_eq (250 * Real.pi) 0 0 (-1) false false).1, ht,
      Real.sin_pi_div_two]
    norm_num
  refine ⟨ha, ?_⟩
  rw [ha, Set.mem_Icc]
  norm_num

/-- C8 (amended): for any fixed amplitude, the gravity-off angle
amplitude * sin(wallClockMillis * 0.002) stays within the interval
from -(absolute value of amplitude) to (absolute value of amplitude)
for all time. -/
theorem gravity_off_abs_bound :
    ∀ (a v amp : ℝ) (cd lg : Bool) (t : ℝ),
      (useFrame true false t ⟨false, cd, a, v, amp, lg⟩).1.angle ∈
        Set.Icc (-|amp|) |amp| := by
  intro a v amp cd lg t
  rw [(useFrame_off_eq t a v amp cd lg).1, Set.mem_Icc]
  have hb : |amp * Real.sin (t * 0.002)| ≤ |amp| := by
    rw [abs_mul]
    exact mul_le_of_le_one_right (abs_nonneg amp) (Real.abs_sin_le_one _)
  exact abs_le.mp hb

/-! ### Energy history -/

lemma handleEnergyUpdate_time_range (ed : EnergyData) (e : Energy) (k : ℕ)
    (h : ed.time = (List.range k).map (fun i : ℕ => (i : ℝ))) :
    (handleEnergyUpdate ed e).time =
      (List.range (k + 1)).map (fun i : ℕ => (i : ℝ)) := by
  cases k with
  | zero =>
    simp only [List.range_zero, List.map_nil] at h
    simp [handleEnergyUpdate, h, List.range_succ]
  | succ m =>
    have hlast : ed.time.getLast? = some ((m : ℝ)) := by
      rw [h, List.range_succ, List.map_append]
      simp
    simp only [handleEnergyUpdate, hlast]
    rw [h, List.range_succ (n := m + 1), List.map_append]
    simp

lemma foldl_time_range (samples : List Energy) :
    ∀ (k : ℕ) (ed : EnergyData),
      ed.time = (List.range k).map (fun i : ℕ => (i : ℝ)) →
      (samples.foldl handleEnergyUpdate ed).time =
        (List.range (k + samples.length)).map (fun i : ℕ => (i : ℝ)) := by
  induction samples with
  | nil =>
    intro k ed h
    simpa using h
  | cons e es ih =>
    intro k ed h
    rw [List.foldl_cons]
    have h2 := ih (k + 1) (handleEnergyUpdate ed e)
      (handleEnergyUpdate_time_range ed e k h)
    rw [h2, List.length_cons]
    have harith : k + 1 + es.length = k + (es.length + 1) := by omega
    rw [harith]

/-- C9: appending a sample assigns it the previous stored tick plus one,
or 0 on an empty history, so appending n samples to the empty history
yields the time sequence 0, 1, ..., n - 1 (in particular the sequence
0, 1, 2 for three samples), independently of wall-clock time. -/
theorem append_sample_time_sequence :
    (∀ (samples : List Energy),
      (samples.foldl handleEnergyUpdate initialEnergyData).time =
        (List.range samples.length).map (fun i : ℕ => (i : ℝ))) ∧
    (∀ (e1 e2 e3 : Energy),
      ([e1, e2, e3].foldl handleEnergyUpdate initialEnergyData).time =
        [0, 1, 2]) := by
  have hmain : ∀ (samples : List Energy),
      (samples.foldl handleEnergyUpdate initialEnergyData).time =
        (List.range samples.length).map (fun i : ℕ => (i : ℝ)) := by
    intro samples
    have h := foldl_time_range samples 0 initialEnergyData (by
      simp [initialEnergyData])
    simpa using h
  refine ⟨hmain, fun e1 e2 e3 => ?_⟩
  rw [hmain [e1, e2, e3]]
  norm_num [List.range_succ]

lemma foldl_lengths (samples : List Energy) :
    ∀ (ed : EnergyData),
      (samples.foldl handleEnergyUpdate ed).mechanicalEnergy.length =
        ed.mechanicalEnergy.length + samples.length ∧
      (samples.foldl handleEnergyUpdate ed).potentialEnergy.length =
        ed.potentialEnergy.length + samples.length ∧
      (samples.foldl handleEnergyUpdate ed).kineticEnergy.length =
        ed.kineticEnergy.length + samples.length ∧
      (samples.foldl handleEnergyUpdate ed).time.length =
        ed.time.length + samples.length := by
  induction samples with
  | nil =>
    intro ed
    simp
  | cons e es ih =>
    intro ed
    obtain ⟨hm, hp, hk, ht⟩ := ih (handleEnergyUpdate ed e)
    have hm1 : (handleEnergyUpdate ed e).mechanicalEnergy.length =
        ed.mechanicalEnergy.length + 1 := by
      simp [handleEnergyUpdate]
    have hp1 : (handleEnergyUpdate ed e).potentialEnergy.length =
        ed.potentialEnergy.length + 1 := by
      simp [handleEnergyUpdate]
    have hk1 : (handleEnergyUpdate ed e).kineticEnergy.length =
        ed.kineticEnergy.length + 1 := by
      simp [handleEnergyUpdate]
    have ht1 : (handleEnergyUpdate ed e).time.length =
        ed.time.length + 1 := by
      simp [handleEnergyUpdate]
    refine ⟨?_, ?_, ?_, ?_⟩ <;> simp only [List.foldl_cons, List.length_cons]
    · rw [hm, hm1]
      omega
    · rw [hp, hp1]
      omega
    · rw [hk, hk1]
      omega
    · rw [ht, ht1]
      omega

/-- C10: every append extends each of the four parallel series by exactly
one element, keeping the previous elements as an unchanged prefix, and
after appending n samples to the empty history each series has length n. -/
theorem energy_history_parallel_lengths :
    (∀ (ed : EnergyData) (e : Energy),
      (handleEnergyUpdate ed e).mechanicalEnergy =
        ed.mechanicalEnergy ++ [e.mechanicalEnergy] ∧
      (handleEnergyUpdate ed e).potentialEnergy =
        ed.potentialEnergy ++ [e.potentialEnergy] ∧
      (handleEnergyUpdate ed e).kineticEnergy =
        ed.kineticEnergy ++ [e.kineticEnergy] ∧
      (handleEnergyUpdate ed e).mechanicalEnergy.length =
        ed.mechanicalEnergy.length + 1 ∧
      (handleEnergyUpdate ed e).potentialEnergy.length =
        ed.potentialEnergy.length + 1 ∧
      (handleEnergyUpdate ed e).kineticEnergy.length =
        ed.kineticEnergy.length + 1 ∧
      (handleEnergyUpdate ed e).time.length = ed.time.length + 1) ∧
    (∀ (samples : List Energy),
      (samples.foldl handleEnergyUpdate initialEnergyData).mechanicalEnergy.length =
        samples.length ∧
      (samples.foldl handleEnergyUpdate initialEnergyData).potentialEnergy.length =
        samples.length ∧
      (samples.foldl handleEnergyUpdate initialEnergyData).kineticEnergy.length =
        samples.length ∧
      (samples.foldl handleEnergyUpdate initialEnergyData).time.length =
        samples.length) := by
  constructor
  · intro ed e
    refine ⟨rfl, rfl, rfl, ?_, ?_, ?_, ?_⟩ <;> simp [handleEnergyUpdate]
  · intro samples
    obtain ⟨hm, hp, hk, ht⟩ := foldl_lengths samples initialEnergyData
    simp only [initialEnergyData, List.length_nil, Nat.zero_add] at hm hp hk ht
    exact ⟨hm, hp, hk, ht⟩

end Pendulum
